import Mathlib

/-!
Shallow embedding of the file-sharing bot in `src/main.py`: the SQLite-backed
persistent store (`files` and `membership_cache` tables), the membership
verifier (`check_user_in_channel`, `check_membership`), the delivery branch of
the `start` handler, and the delayed message-deletion job (`delete_job`).
Timestamps are modelled as seconds (`Nat`); the process clock is passed
explicitly as a `now` argument to every operation that reads or writes one.
-/

/-! ### String helpers modelling Python string operations -/

/-- Does list `l` begin with list `p`?  (Models Python substring matching.) -/
def beginsWith : List Char → List Char → Bool
  | [], _ => true
  | _ :: _, [] => false
  | a :: ps, b :: ls => a == b && beginsWith ps ls

/-- Does `p` occur as a contiguous sublist of `l`? -/
def hasSubstr (p : List Char) : List Char → Bool
  | [] => beginsWith p []
  | c :: ls => beginsWith p (c :: ls) || hasSubstr p ls

/-- Python's `pat in s` on strings. -/
def strContains (s pat : String) : Bool := hasSubstr pat.data s.data

/-- Python's `s.replace("@", "")`: drop every `'@'` character. -/
def stripAt (s : String) : String := ⟨s.data.filter (· != '@')⟩

/-! ### Decimal keys: Python `str(n)` and SQLite `CAST(id AS INTEGER)` -/

/-- Little-endian decimal digits of `n`, with explicit fuel (structural). -/
def decDigitsAux : Nat → Nat → List Nat
  | 0, _ => []
  | fuel + 1, n => if n = 0 then [] else n % 10 :: decDigitsAux fuel (n / 10)

/-- Python's `str(n)` for a non-negative integer `n`. -/
def natToDecimalString (n : Nat) : String :=
  if n = 0 then "0" else ⟨((decDigitsAux n n).reverse.map Nat.digitChar)⟩

/-- SQLite's `CAST(s AS INTEGER)` restricted to non-negative results: the value
of the longest run of leading decimal digits, `0` if there is none. -/
def sqliteCastInt (s : String) : Nat :=
  (s.data.takeWhile Char.isDigit).foldl (fun a c => 10 * a + (c.toNat - 48)) 0

/-- Value of a little-endian decimal digit list. -/
def ofDig : List Nat → Nat
  | [] => 0
  | d :: t => d + 10 * ofDig t

theorem ofDig_decDigitsAux (fuel : Nat) :
    ∀ n : Nat, n ≤ fuel → ofDig (decDigitsAux fuel n) = n := by
  induction fuel with
  | zero => intro n hn; interval_cases n; simp [decDigitsAux, ofDig]
  | succ fuel ih =>
    intro n hn
    by_cases h0 : n = 0
    · simp [decDigitsAux, h0, ofDig]
    · have hdiv : n / 10 ≤ fuel := by
        have : n / 10 < n := Nat.div_lt_self (Nat.pos_of_ne_zero h0) (by norm_num)
        omega
      simp only [decDigitsAux, h0, if_false, ofDig, ih _ hdiv]
      omega

theorem decDigitsAux_lt_ten (fuel : Nat) :
    ∀ n : Nat, ∀ d ∈ decDigitsAux fuel n, d < 10 := by
  induction fuel with
  | zero => intro n d hd; simp [decDigitsAux] at hd
  | succ fuel ih =>
    intro n d hd
    by_cases h0 : n = 0
    · simp [decDigitsAux, h0] at hd
    · simp only [decDigitsAux, h0, if_false, List.mem_cons] at hd
      rcases hd with h | h
      · subst h; exact Nat.mod_lt _ (by norm_num)
      · exact ih _ d h

theorem digitChar_spec : ∀ d < 10,
    (Nat.digitChar d).isDigit = true ∧ (Nat.digitChar d).toNat - 48 = d := by
  decide

/-- `takeWhile` keeps a list all of whose elements satisfy the predicate. -/
theorem takeWhile_all {α : Type} (p : α → Bool) :
    ∀ l : List α, (∀ c ∈ l, p c = true) → l.takeWhile p = l := by
  intro l
  induction l with
  | nil => intro _; rfl
  | cons a t ih =>
    intro h
    simp only [List.takeWhile_cons, h a (by simp)]
    simpa using ih (fun c hc => h c (by simp [hc]))

theorem foldl_digits_horner (ds : List Nat) :
    ∀ acc : Nat, (∀ d ∈ ds, d < 10) →
      ((ds.map Nat.digitChar).reverse.foldl (fun a c => 10 * a + (c.toNat - 48)) acc)
        = acc * 10 ^ ds.length + ofDig ds := by
  induction ds with
  | nil => intro acc _; simp [ofDig]
  | cons d t ih =>
    intro acc h
    have hd : d < 10 := h d (by simp)
    have ht : ∀ x ∈ t, x < 10 := fun x hx => h x (by simp [hx])
    simp only [List.map_cons, List.reverse_cons, List.foldl_append, List.foldl_cons,
      List.foldl_nil, ih acc ht, (digitChar_spec d hd).2, ofDig, List.length_cons]
    ring

/-- SQLite's cast undoes Python's decimal rendering. -/
theorem sqliteCastInt_natToDecimalString (n : Nat) :
    sqliteCastInt (natToDecimalString n) = n := by
  by_cases h0 : n = 0
  · subst h0; decide
  · have hds : ∀ d ∈ decDigitsAux n n, d < 10 := decDigitsAux_lt_ten n n
    have hdigits : ∀ c ∈ (decDigitsAux n n).reverse.map Nat.digitChar, c.isDigit = true := by
      intro c hc
      simp only [List.mem_map, List.mem_reverse] at hc
      obtain ⟨d, hd, rfl⟩ := hc
      exact (digitChar_spec d (hds d hd)).1
    have hdata : (natToDecimalString n).data = (decDigitsAux n n).reverse.map Nat.digitChar := by
      simp [natToDecimalString, h0]
    rw [sqliteCastInt, hdata, takeWhile_all _ _ hdigits, List.map_reverse,
      foldl_digits_horner _ 0 (by intro d hd; exact hds d (by simpa using hd))]
    simpa using ofDig_decDigitsAux n n le_rfl

/-! ### Configuration constants (`src/main.py`, CONFIG section) -/

/-- Default handle of the first required channel. -/
def CHANNEL_1 : String := "A_Knight_of_the_Seven_Kingdoms_t"

/-- Default handle of the second required channel. -/
def CHANNEL_2 : String := "your_movies_web"

/-- Seconds before a delivered message is deleted from the chat. -/
def DELETE_AFTER : Nat := 600

/-- Maximum number of file rows kept by the count-based retention rule. -/
def MAX_STORED_FILES : Nat := 1000

/-- Retention policy in days; the repository pins it to `0` (disabled). -/
def AUTO_CLEANUP_DAYS : Int := 0

/-- Playable video extensions (`PLAYABLE_EXTS` in the source). -/
def PLAYABLE_EXTS : List String := ["mp4", "mov", "m4v", "mpeg", "mpg"]

/-! ### Data model: the two SQLite tables -/

/-- One row of the `files` table. -/
structure FileRow where
  id : String
  file_id : String
  file_name : String
  mime_type : String
  is_video : Bool
  file_size : Nat
  timestamp : Nat
  access_count : Nat
deriving Repr, DecidableEq

/-- One row of the `membership_cache` table. -/
structure CacheRow where
  user_id : Int
  channel : String
  is_member : Bool
  timestamp : Nat
deriving Repr, DecidableEq

/-- The persistent store: both tables of `file_bot.db`. -/
structure DBState where
  files : List FileRow
  membership_cache : List CacheRow
deriving Repr, DecidableEq

/-- The metadata dict passed to `Database.save_file` (after the `.get`
defaults of the Python call sites are applied). -/
structure FileInfo where
  file_name : String
  mime_type : String
  is_video : Bool
  size : Nat
deriving Repr, DecidableEq

/-- The dict returned by `Database.get_file`. -/
structure FileRecordOut where
  file_id : String
  file_name : String
  mime_type : String
  is_video : Bool
  size : Nat
  timestamp : Nat
  access_count : Nat
deriving Repr, DecidableEq

/-! ### `Database` operations -/

/-- `SELECT COALESCE(MAX(CAST(id AS INTEGER)), 0) FROM files`. -/
def maxKeyL (l : List FileRow) : Nat :=
  l.foldl (fun a r => max a (sqliteCastInt r.id)) 0

/-- `Database.save_file`: allocate `str(max + 1)` and insert the new row with
`access_count = 0` and the current timestamp. -/
def save_file (now : Nat) (file_id : String) (info : FileInfo) (s : DBState) :
    String × DBState :=
  let new_id := natToDecimalString (maxKeyL s.files + 1)
  (new_id,
   { s with files := s.files ++
      [{ id := new_id, file_id := file_id, file_name := info.file_name,
         mime_type := info.mime_type, is_video := info.is_video,
         file_size := info.size, timestamp := now, access_count := 0 }] })

/-- `Database.get_file`: look the row up by id; on a hit, increment the stored
`access_count` and return the record with the incremented count. -/
def get_file (key : String) (s : DBState) : Option FileRecordOut × DBState :=
  match s.files.find? (fun r => r.id == key) with
  | none => (none, s)
  | some r =>
    (some { file_id := r.file_id, file_name := r.file_name,
            mime_type := r.mime_type, is_video := r.is_video,
            size := r.file_size, timestamp := r.timestamp,
            access_count := r.access_count + 1 },
     { s with files := s.files.map (fun q =>
        if q.id == key then { q with access_count := q.access_count + 1 } else q) })

/-- First DELETE of `cleanup_old_files`: drop rows strictly older than the
cutoff (`timestamp < datetime('now', '-N days')`). -/
def removeOlderThan (cutoff : Nat) (l : List FileRow) : List FileRow :=
  l.filter (fun r => !(decide (r.timestamp < cutoff)))

/-- Insert a row into a list sorted by timestamp, newest first
(models `ORDER BY timestamp DESC`). -/
def insertByTsDesc (r : FileRow) : List FileRow → List FileRow
  | [] => [r]
  | x :: xs => if x.timestamp ≤ r.timestamp then r :: x :: xs
               else x :: insertByTsDesc r xs

/-- `ORDER BY timestamp DESC` as an insertion sort. -/
def sortByTsDesc (l : List FileRow) : List FileRow := l.foldr insertByTsDesc []

/-- `SELECT id FROM files ORDER BY timestamp DESC LIMIT n`. -/
def newestIds (n : Nat) (l : List FileRow) : List String :=
  ((sortByTsDesc l).take n).map (·.id)

/-- Second DELETE of `cleanup_old_files`: keep only rows whose id is among the
`n` newest ids (`DELETE ... WHERE id NOT IN (...)`). -/
def trimToNewest (n : Nat) (l : List FileRow) : List FileRow :=
  l.filter (fun r => (newestIds n l).contains r.id)

/-- `Database.cleanup_old_files`, parameterised by the retention policy that
the source reads from the module constant `AUTO_CLEANUP_DAYS`. -/
def cleanup_old_files (days : Int) (now : Nat) (s : DBState) : DBState :=
  if days ≤ 0 then s
  else
    let cutoff := now - days.toNat * 86400
    let kept := trimToNewest MAX_STORED_FILES (removeOlderThan cutoff s.files)
    { s with files := kept }

/-- `Database.cache_membership`: `INSERT OR REPLACE` keyed on
`(user_id, channel)`, stamped with the current time. -/
def cache_membership (now : Nat) (user_id : Int) (channel : String)
    (is_member : Bool) (s : DBState) : DBState :=
  let others :=
    s.membership_cache.filter
      (fun r => !(r.user_id == user_id && r.channel == channel))
  let newRow : CacheRow :=
    { user_id := user_id, channel := channel,
      is_member := is_member, timestamp := now }
  { s with membership_cache := others ++ [newRow] }

/-- `Database.get_cached_membership`: the row for `(user_id, channel)` counts
only while `timestamp > datetime('now', '-5 minutes')`. -/
def get_cached_membership (now : Nat) (user_id : Int) (channel : String)
    (s : DBState) : Option Bool :=
  match s.membership_cache.find?
      (fun r => r.user_id == user_id && r.channel == channel
                && decide (now < r.timestamp + 300)) with
  | some r => some r.is_member
  | none => none

/-- Python truthiness of an `Optional[int]`: `None` and `0` are falsy. -/
def pyTruthyOptInt : Option Int → Bool
  | none => false
  | some u => u != 0

/-- `Database.clear_membership_cache`: per-user delete when the argument is
truthy, otherwise delete every row. -/
def clear_membership_cache (user_id : Option Int) (s : DBState) : DBState :=
  if pyTruthyOptInt user_id then
    match user_id with
    | some u => { s with membership_cache :=
        s.membership_cache.filter (fun r => r.user_id != u) }
    | none => s
  else
    { s with membership_cache := [] }

/-! ### Membership verifier -/

/-- The external authority (`bot.get_chat_member`): maps a channel username
and a user id either to a member-status string or to a raised error whose
lowered message the caller inspects (`str(e).lower()`). -/
structure AuthorityEnv where
  getChatMember : String → Int → Except String String

/-- Python's `channel.startswith("@")`. -/
def startsWithAt (channel : String) : Bool :=
  beginsWith "@".data channel.data

/-- Python's `f"@{channel}"` normalisation inside `check_user_in_channel`. -/
def channelUsername (channel : String) : String :=
  if startsWithAt channel then channel else "@" ++ channel

/-- `check_user_in_channel`: returns the membership verdict, the updated
store, and the list of authority calls issued (empty on a cache hit). -/
def check_user_in_channel (env : AuthorityEnv) (now : Nat) (channel : String)
    (user_id : Int) (force_check : Bool) (s : DBState) :
    Bool × DBState × List (String × Int) :=
  let cached : Option Bool :=
    if force_check then none else get_cached_membership now user_id channel s
  match cached with
  | some c => (c, s, [])
  | none =>
    let cu := channelUsername channel
    match env.getChatMember cu user_id with
    | Except.ok status =>
      let is_member := ["member", "administrator", "creator"].contains status
      (is_member, cache_membership now user_id (stripAt channel) is_member s,
       [(cu, user_id)])
    | Except.error e =>
      if strContains e "user not found" || strContains e "user not participant" then
        (false, cache_membership now user_id (stripAt channel) false s,
         [(cu, user_id)])
      else if strContains e "chat not found" then (true, s, [(cu, user_id)])
      else if strContains e "forbidden" then (true, s, [(cu, user_id)])
      else (true, s, [(cu, user_id)])

/-- The dict built by `check_membership`. -/
structure MembershipResult where
  channel1 : Bool
  channel2 : Bool
  all_joined : Bool
  missing_channels : List String
deriving Repr, DecidableEq

/-- `check_membership`: clear the user's cache rows when forcing, check both
configured channels in order, and aggregate the verdicts. -/
def check_membership (env : AuthorityEnv) (now : Nat) (user_id : Int)
    (force_check : Bool) (s : DBState) :
    MembershipResult × DBState × List (String × Int) :=
  let s0 := if force_check then clear_membership_cache (some user_id) s else s
  let r1 := check_user_in_channel env now CHANNEL_1 user_id force_check s0
  let r2 := check_user_in_channel env now CHANNEL_2 user_id force_check r1.2.1
  let ch1 := r1.1
  let ch2 := r2.1
  let missing :=
    (if ch1 then [] else ["@" ++ CHANNEL_1]) ++
    (if ch2 then [] else ["@" ++ CHANNEL_2])
  ({ channel1 := ch1, channel2 := ch2, all_joined := ch1 && ch2,
     missing_channels := missing },
   r2.2.1, r1.2.2 ++ r2.2.2)

/-- The cache-free verdict of `check_user_in_channel`: the pure function of
the authority's answer that a forced (or cache-missing) check computes. -/
def authVerdict (env : AuthorityEnv) (channel : String) (user_id : Int) : Bool :=
  match env.getChatMember (channelUsername channel) user_id with
  | Except.ok status => ["member", "administrator", "creator"].contains status
  | Except.error e =>
    !(strContains e "user not found" || strContains e "user not participant")

/-! ### Delivery gate (AccessGranted branch of `start`) and scheduler -/

/-- Python's `s.split('.')` on a character list. -/
def splitOnDot : List Char → List (List Char)
  | [] => [[]]
  | c :: t =>
    let r := splitOnDot t
    if c == '.' then [] :: r
    else
      match r with
      | [] => [[c]]
      | h :: rt => (c :: h) :: rt

/-- Python's `filename.lower().split('.')[-1] if '.' in filename else ""`. -/
def extOf (filename : String) : String :=
  if filename.data.contains '.' then
    ⟨(splitOnDot (filename.data.map Char.toLower)).getLastD []⟩
  else ""

/-- How the artifact is delivered. -/
inductive DeliveryKind
  | video
  | document
deriving Repr, DecidableEq

/-- The classification in `start`: playable video exactly when the record's
`is_video` flag is set and the extension is playable. -/
def classifyDelivery (file_name : String) (is_video : Bool) : DeliveryKind :=
  let ext := extOf file_name
  if is_video && PLAYABLE_EXTS.contains ext then DeliveryKind.video
  else DeliveryKind.document

/-- A one-shot job armed with `job_queue.run_once`. -/
structure ScheduledJob where
  delay : Nat
  chat_id : Int
  data : Int
deriving Repr, DecidableEq

/-- The AccessGranted tail of `start`: classify the record, send it, and — when
the job queue is available — arm the deletion job with the sent message id. -/
def deliverFile (chat_id : Int) (rec : FileRecordOut) (sentMessageId : Int)
    (jobQueueAvailable : Bool) : DeliveryKind × Option ScheduledJob :=
  (classifyDelivery rec.file_name rec.is_video,
   if jobQueueAvailable then
     some { delay := DELETE_AFTER, chat_id := chat_id, data := sentMessageId }
   else none)

/-! ### Delayed message deletion (`delete_job`) -/

/-- The job context: `job.chat_id` and `job.data` (the message id). -/
structure Job where
  chat_id : Int
  data : Int
deriving Repr, DecidableEq

/-- What `delete_job` logged; every branch returns normally. -/
inductive DelLogTag
  | invalidJob
  | deleted
  | alreadyGone
  | cantDelete
  | chatGone
  | otherFail
deriving Repr, DecidableEq

/-- The branch ladder of `delete_job`'s inner `except` clause, classifying
the lowered error message; every branch only logs. -/
def classifyDelErr (e : String) : DelLogTag :=
  if strContains e "message to delete not found" then DelLogTag.alreadyGone
  else if strContains e "message can\x27t be deleted" then DelLogTag.cantDelete
  else if strContains e "chat not found" then DelLogTag.chatGone
  else DelLogTag.otherFail

/-- `delete_job`: skip falsy ids, otherwise attempt exactly one
`delete_message` call and classify (but swallow) any failure.  Returns the
untouched store, the log tag, and the list of deletion attempts issued. -/
def delete_job (delMsg : Int → Int → Except String Unit) (j : Job)
    (s : DBState) : DBState × DelLogTag × List (Int × Int) :=
  if j.chat_id == 0 || j.data == 0 then (s, DelLogTag.invalidJob, [])
  else
    match delMsg j.chat_id j.data with
    | Except.ok _ => (s, DelLogTag.deleted, [(j.chat_id, j.data)])
    | Except.error e => (s, classifyDelErr e, [(j.chat_id, j.data)])

/-! ### Key-allocation lemmas (`save_file`) -/

theorem foldl_max_ge_init (l : List FileRow) :
    ∀ a : Nat, a ≤ l.foldl (fun x r => max x (sqliteCastInt r.id)) a := by
  induction l with
  | nil => intro a; exact le_rfl
  | cons r t ih =>
    intro a
    exact le_trans (le_max_left a (sqliteCastInt r.id)) (ih _)

theorem mem_le_foldl_max (l : List FileRow) :
    ∀ (a : Nat) (r : FileRow), r ∈ l →
      sqliteCastInt r.id ≤ l.foldl (fun x q => max x (sqliteCastInt q.id)) a := by
  induction l with
  | nil => intro a r hr; simp at hr
  | cons q t ih =>
    intro a r hr
    rcases List.mem_cons.mp hr with h | h
    · subst h
      exact le_trans (le_max_right a (sqliteCastInt r.id)) (foldl_max_ge_init t _)
    · exact ih _ r h

theorem mem_le_maxKeyL {l : List FileRow} {r : FileRow} (hr : r ∈ l) :
    sqliteCastInt r.id ≤ maxKeyL l :=
  mem_le_foldl_max l 0 r hr

theorem maxKeyL_append_single (l : List FileRow) (r : FileRow) :
    maxKeyL (l ++ [r]) = max (maxKeyL l) (sqliteCastInt r.id) := by
  simp [maxKeyL, List.foldl_append]

/-- Ids already stored never collide with the freshly allocated id. -/
theorem stored_id_ne_new_id {s : DBState} {r : FileRow} (hr : r ∈ s.files) :
    r.id ≠ natToDecimalString (maxKeyL s.files + 1) := by
  intro h
  have hle : sqliteCastInt r.id ≤ maxKeyL s.files := mem_le_maxKeyL hr
  rw [h, sqliteCastInt_natToDecimalString] at hle
  omega

theorem maxKeyL_save (now : Nat) (fid : String) (info : FileInfo) (s : DBState) :
    maxKeyL ((save_file now fid info s).2).files = maxKeyL s.files + 1 := by
  show maxKeyL (s.files ++ [_]) = _
  rw [maxKeyL_append_single]
  simp [sqliteCastInt_natToDecimalString]

/-- One upload request per `save_file` call, as issued by the `upload` handler. -/
structure SaveOp where
  now : Nat
  file_id : String
  info : FileInfo

/-- A sequence of `save_file` calls with no intervening deletions; returns the
emitted keys in order together with the final store. -/
def runSaves : List SaveOp → DBState → List String × DBState
  | [], s => ([], s)
  | op :: ops, s =>
    let p := save_file op.now op.file_id op.info s
    let q := runSaves ops p.2
    (p.1 :: q.1, q.2)

theorem runSaves_keys_gt (ops : List SaveOp) :
    ∀ s : DBState,
      (∀ k ∈ (runSaves ops s).1, maxKeyL s.files < sqliteCastInt k)
      ∧ ((runSaves ops s).1).Pairwise
          (fun a b => sqliteCastInt a < sqliteCastInt b) := by
  induction ops with
  | nil => intro s; refine ⟨?_, ?_⟩ <;> simp [runSaves]
  | cons op t ih =>
    intro s
    have hkeys : (runSaves (op :: t) s).1
        = (save_file op.now op.file_id op.info s).1
          :: (runSaves t (save_file op.now op.file_id op.info s).2).1 := rfl
    have hcast : sqliteCastInt (save_file op.now op.file_id op.info s).1
        = maxKeyL s.files + 1 := sqliteCastInt_natToDecimalString _
    have hmax := maxKeyL_save op.now op.file_id op.info s
    obtain ⟨ihgt, ihpw⟩ := ih (save_file op.now op.file_id op.info s).2
    constructor
    · intro k hk
      rw [hkeys, List.mem_cons] at hk
      rcases hk with h | h
      · rw [h, hcast]; omega
      · have := ihgt k h; omega
    · rw [hkeys]
      refine List.Pairwise.cons ?_ ihpw
      intro b hb
      have := ihgt b hb
      rw [hcast]
      omega

/-- C2: for every sequence of `save_file` calls with no intervening deletions,
the returned keys are pairwise unique and strictly increasing when read as
integers; each call allocates key `max(existing integer keys) + 1`, and the
key is `"1"` when the `files` table is empty. -/
theorem save_file_keys_unique_increasing :
    (∀ (now : Nat) (fid : String) (info : FileInfo) (s : DBState),
        (save_file now fid info s).1 = natToDecimalString (maxKeyL s.files + 1))
    ∧ (∀ (now : Nat) (fid : String) (info : FileInfo) (mc : List CacheRow),
        (save_file now fid info ⟨[], mc⟩).1 = "1")
    ∧ (∀ (ops : List SaveOp) (s : DBState),
        ((runSaves ops s).1).Pairwise
          (fun a b => sqliteCastInt a < sqliteCastInt b))
    ∧ (∀ (ops : List SaveOp) (s : DBState), ((runSaves ops s).1).Nodup) := by
  refine ⟨fun _ _ _ _ => rfl,
    fun _ _ _ _ => by show natToDecimalString (maxKeyL [] + 1) = "1"; decide, ?_, ?_⟩
  · intro ops s
    exact (runSaves_keys_gt ops s).2
  · intro ops s
    have hpw := (runSaves_keys_gt ops s).2
    exact hpw.imp (fun h => by intro he; rw [he] at h; omega)

/-- Concrete run of C2: three uploads from the empty store yield the keys
`"1"`, `"2"`, `"3"`. -/
theorem save_file_keys_unique_increasing_witness :
    ((runSaves [⟨1, "a", ⟨"A", "", false, 0⟩⟩, ⟨2, "b", ⟨"B", "", false, 0⟩⟩,
                ⟨3, "c", ⟨"C", "", true, 7⟩⟩] ⟨[], []⟩).1).Nodup
    ∧ (runSaves [⟨1, "a", ⟨"A", "", false, 0⟩⟩, ⟨2, "b", ⟨"B", "", false, 0⟩⟩,
                 ⟨3, "c", ⟨"C", "", true, 7⟩⟩] ⟨[], []⟩).1 = ["1", "2", "3"] :=
  ⟨save_file_keys_unique_increasing.2.2.2 _ _, by decide⟩

/-! ### Lookup lemmas (`get_file`) -/

theorem find?_id_append_new (l : List FileRow) (row : FileRow)
    (h : ∀ r ∈ l, r.id ≠ row.id) :
    (l ++ [row]).find? (fun r => r.id == row.id) = some row := by
  rw [List.find?_append]
  have hnone : l.find? (fun r => r.id == row.id) = none :=
    List.find?_eq_none.mpr (fun x hx => by
      simp only [beq_iff_eq]
      exact h x hx)
  rw [hnone]
  simp [List.find?]

theorem find?_map_inc (key : String) (l : List FileRow) (r₀ : FileRow)
    (h : l.find? (fun r => r.id == key) = some r₀) :
    (l.map (fun q => if q.id == key
        then { q with access_count := q.access_count + 1 } else q)).find?
      (fun r => r.id == key)
      = some { r₀ with access_count := r₀.access_count + 1 } := by
  induction l with
  | nil => simp [List.find?] at h
  | cons a t ih =>
    rw [List.find?_cons] at h
    by_cases ha : (a.id == key) = true
    · simp only [ha] at h
      injection h with h
      subst h
      simp only [List.map_cons, ha, if_true]
      rw [List.find?_cons]
      simp [ha]
    · simp only [Bool.not_eq_true] at ha
      simp only [ha] at h
      simp only [List.map_cons, ha, Bool.false_eq_true, if_false]
      rw [List.find?_cons]
      simp only [ha]
      exact ih h

theorem get_file_hit (k : String) (s : DBState) (r₀ : FileRow)
    (h : s.files.find? (fun r => r.id == k) = some r₀) :
    (get_file k s).1
      = some ⟨r₀.file_id, r₀.file_name, r₀.mime_type, r₀.is_video,
              r₀.file_size, r₀.timestamp, r₀.access_count + 1⟩
    ∧ ((get_file k s).2).files.find? (fun r => r.id == k)
        = some { r₀ with access_count := r₀.access_count + 1 } := by
  constructor
  · simp [get_file, h]
  · have hm := find?_map_inc k s.files r₀ h
    simpa [get_file, h] using hm

/-- C3: a record saved by `save_file` is returned by `get_file` with the same
name, mime type, video flag and size; every `get_file` hit increments the
stored `access_count` by exactly one and reports the incremented value, so the
first lookup after an upload reports `1` and the second reports `2`. -/
theorem get_file_roundtrip_access_count :
    (∀ (now : Nat) (fid : String) (info : FileInfo) (s : DBState),
        (get_file (save_file now fid info s).1 (save_file now fid info s).2).1
          = some ⟨fid, info.file_name, info.mime_type, info.is_video,
                  info.size, now, 1⟩
        ∧ (get_file (save_file now fid info s).1
             (get_file (save_file now fid info s).1
               (save_file now fid info s).2).2).1
          = some ⟨fid, info.file_name, info.mime_type, info.is_video,
                  info.size, now, 2⟩)
    ∧ (∀ (k : String) (s : DBState) (r₀ : FileRow),
        s.files.find? (fun r => r.id == k) = some r₀ →
        (get_file k s).1
          = some ⟨r₀.file_id, r₀.file_name, r₀.mime_type, r₀.is_video,
                  r₀.file_size, r₀.timestamp, r₀.access_count + 1⟩
        ∧ ((get_file k s).2).files.find? (fun r => r.id == k)
            = some { r₀ with access_count := r₀.access_count + 1 }) := by
  refine ⟨?_, fun k s r₀ h => get_file_hit k s r₀ h⟩
  intro now fid info s
  set K := (save_file now fid info s).1 with hK
  have hne : ∀ r ∈ s.files, r.id ≠ K := fun r hr => stored_id_ne_new_id hr
  have hfind1 : ((save_file now fid info s).2).files.find? (fun r => r.id == K)
      = some { id := K, file_id := fid, file_name := info.file_name,
               mime_type := info.mime_type, is_video := info.is_video,
               file_size := info.size, timestamp := now, access_count := 0 } :=
    find?_id_append_new s.files
      { id := K, file_id := fid, file_name := info.file_name,
        mime_type := info.mime_type, is_video := info.is_video,
        file_size := info.size, timestamp := now, access_count := 0 } hne
  have h1 := get_file_hit K (save_file now fid info s).2 _ hfind1
  have h2 := get_file_hit K (get_file K (save_file now fid info s).2).2 _ h1.2
  exact ⟨h1.1, h2.1⟩

/-- Concrete run of C3: upload `A.mp4` into the empty store, then look it up
twice; the reported access counts are `1` then `2`. -/
theorem get_file_roundtrip_access_count_witness :
    (get_file (save_file 5 "f" ⟨"A.mp4", "video/mp4", true, 9⟩ ⟨[], []⟩).1
       (save_file 5 "f" ⟨"A.mp4", "video/mp4", true, 9⟩ ⟨[], []⟩).2).1
      = some ⟨"f", "A.mp4", "video/mp4", true, 9, 5, 1⟩ :=
  (get_file_roundtrip_access_count.1 5 "f" ⟨"A.mp4", "video/mp4", true, 9⟩ ⟨[], []⟩).1

/-! ### Cache-window lemmas (`get_cached_membership` / `cache_membership`) -/

theorem find?_cache_others_none (u : Int) (c : String) (now : Nat)
    (l : List CacheRow) :
    (l.filter (fun r => !(r.user_id == u && r.channel == c))).find?
      (fun r => r.user_id == u && r.channel == c
                && decide (now < r.timestamp + 300)) = none := by
  apply List.find?_eq_none.mpr
  intro x hx
  have h := (List.mem_filter.mp hx).2
  cases hq : (x.user_id == u && x.channel == c) with
  | true => rw [hq] at h; simp at h
  | false =>
    intro hcontra
    rw [Bool.false_and] at hcontra
    exact Bool.noConfusion hcontra

/-- C5 counterexample: an entry written exactly 5 minutes ago (age 300 s, not
older than 5 minutes) is already reported absent, where the claim as stated
promises the most recently cached value. -/
theorem get_cached_membership_boundary_counterexample :
    get_cached_membership 1300 1 "g" (cache_membership 1000 1 "g" true ⟨[], []⟩)
      = none
    ∧ (1300 : Nat) - 1000 ≤ 300 := by decide

theorem get_cached_membership_eq (now : Nat) (u : Int) (c : String)
    (s : DBState) :
    get_cached_membership now u c s
      = (s.membership_cache.find? (fun r => r.user_id == u && r.channel == c
          && decide (now < r.timestamp + 300))).map (fun r => r.is_member) := by
  unfold get_cached_membership
  cases h : s.membership_cache.find? (fun r => r.user_id == u && r.channel == c
      && decide (now < r.timestamp + 300)) with
  | none => simp [h]
  | some r => simp [h]

/-- C5 (amended): `get_cached_membership` returns the boolean most recently
stored by `cache_membership` while the entry is strictly younger than 5
minutes, and absent when there is no entry for the pair or every entry for the
pair is 5 minutes old or older. -/
theorem get_cached_membership_window :
    (∀ (s : DBState) (now₀ : Nat) (u : Int) (c : String) (b : Bool) (now : Nat),
        get_cached_membership now u c (cache_membership now₀ u c b s)
          = if now < now₀ + 300 then some b else none)
    ∧ (∀ (now : Nat) (u : Int) (c : String) (s : DBState),
        (∀ r ∈ s.membership_cache,
            r.user_id = u → r.channel = c → r.timestamp + 300 ≤ now) →
        get_cached_membership now u c s = none) := by
  constructor
  · intro s now₀ u c b now
    rw [get_cached_membership_eq]
    have hcache : (cache_membership now₀ u c b s).membership_cache
        = s.membership_cache.filter
            (fun r => !(r.user_id == u && r.channel == c))
          ++ [{ user_id := u, channel := c, is_member := b,
                timestamp := now₀ }] := rfl
    rw [hcache, List.find?_append, find?_cache_others_none]
    by_cases hw : now < now₀ + 300
    · simp [List.find?, hw]
    · simp [List.find?, hw]
  · intro now u c s h
    rw [get_cached_membership_eq]
    have hnone : s.membership_cache.find?
        (fun r => r.user_id == u && r.channel == c
                  && decide (now < r.timestamp + 300)) = none := by
      apply List.find?_eq_none.mpr
      intro r hr
      simp only [Bool.and_eq_true, beq_iff_eq, decide_eq_true_eq]
      rintro ⟨⟨hu, hc⟩, hw⟩
      have := h r hr hu hc
      omega
    rw [hnone]
    rfl

/-- Concrete run of C5 (amended): a 400-second-old entry is reported absent. -/
theorem get_cached_membership_window_witness :
    get_cached_membership 400 1 "g" ⟨[], [⟨1, "g", true, 0⟩]⟩ = none :=
  get_cached_membership_window.2 400 1 "g" ⟨[], [⟨1, "g", true, 0⟩]⟩ (by decide)

/-! ### Retention (`cleanup_old_files`) -/

theorem cleanup_old_files_disabled {days : Int} (h : days ≤ 0) (now : Nat)
    (s : DBState) : cleanup_old_files days now s = s := by
  simp [cleanup_old_files, h]

/-- C6: with the retention policy ≤ 0, `cleanup_old_files` leaves the file
table untouched across any number of invocations; with a positive policy, the
resulting table is the age-filtered table trimmed to the most recent
`MAX_STORED_FILES` rows by timestamp. -/
theorem cleanup_old_files_noop_or_trim :
    (∀ (days : Int) (nows : List Nat) (s : DBState), days ≤ 0 →
        nows.foldl (fun st nw => cleanup_old_files days nw st) s = s)
    ∧ (∀ (days : Int) (now : Nat) (s : DBState), 0 < days →
        cleanup_old_files days now s
          = ⟨trimToNewest MAX_STORED_FILES
               (removeOlderThan (now - days.toNat * 86400) s.files),
             s.membership_cache⟩) := by
  constructor
  · intro days nows
    induction nows with
    | nil => intro s _; rfl
    | cons nw t ih =>
      intro s h
      rw [List.foldl_cons, cleanup_old_files_disabled h]
      exact ih s h
  · intro days now s h
    simp [cleanup_old_files, not_le.mpr h]

/-- Concrete run of C6: two invocations with the repository's disabled policy
leave a one-row table unchanged, and a positive policy produces the
filter-then-trim table. -/
theorem cleanup_old_files_noop_or_trim_witness :
    ([5, 10].foldl (fun st nw => cleanup_old_files AUTO_CLEANUP_DAYS nw st)
        ⟨[⟨"1", "f", "A", "", false, 0, 1, 0⟩], []⟩
      = ⟨[⟨"1", "f", "A", "", false, 0, 1, 0⟩], []⟩)
    ∧ cleanup_old_files 1 100000 ⟨[⟨"1", "f", "A", "", false, 0, 1, 0⟩], []⟩
      = ⟨trimToNewest MAX_STORED_FILES
           (removeOlderThan (100000 - (1 : Int).toNat * 86400)
             [⟨"1", "f", "A", "", false, 0, 1, 0⟩]),
         []⟩ :=
  ⟨cleanup_old_files_noop_or_trim.1 AUTO_CLEANUP_DAYS [5, 10] _ (by decide),
   cleanup_old_files_noop_or_trim.2 1 100000 _ (by decide)⟩

/-! ### Delayed deletion (`delete_job`) -/

/-- C7: the deletion job is armed with the fixed 600-second delay, attempts to
delete only the delivered message (never more than once), swallows every
deletion failure, and leaves the persistent store untouched. -/
theorem delete_job_swallows_and_preserves_store :
    DELETE_AFTER = 600
    ∧ (∀ (chat : Int) (rec : FileRecordOut) (mid : Int),
        (deliverFile chat rec mid true).2
          = some { delay := DELETE_AFTER, chat_id := chat, data := mid })
    ∧ (∀ (delMsg : Int → Int → Except String Unit) (j : Job) (s : DBState),
        (delete_job delMsg j s).1 = s
        ∧ ((delete_job delMsg j s).2.2 = []
           ∨ (delete_job delMsg j s).2.2 = [(j.chat_id, j.data)])) := by
  refine ⟨rfl, fun _ _ _ => rfl, ?_⟩
  intro delMsg j s
  unfold delete_job
  by_cases h0 : (j.chat_id == 0 || j.data == 0) = true
  · simp [h0]
  · simp only [Bool.not_eq_true] at h0
    rw [h0]
    simp only [Bool.false_eq_true, if_false]
    cases hd : delMsg j.chat_id j.data with
    | ok _ => exact ⟨rfl, Or.inr rfl⟩
    | error e => exact ⟨rfl, Or.inr rfl⟩

/-! ### Delivery classification (`start`, AccessGranted branch) -/

theorem contains_iff_mem_strings (l : List String) (a : String) :
    l.contains a = true ↔ a ∈ l := List.elem_iff

/-- C8: in the AccessGranted state the artifact is sent as a playable video
exactly when the record's `is_video` flag is set and its extension is in
`PLAYABLE_EXTS`; otherwise it is sent as a generic document; and when the job
queue is available the deletion job is armed with the sent message's handle. -/
theorem deliver_file_classification :
    ∀ (chat : Int) (rec : FileRecordOut) (mid : Int) (jq : Bool),
      ((deliverFile chat rec mid jq).1 = DeliveryKind.video
        ↔ (rec.is_video = true ∧ extOf rec.file_name ∈ PLAYABLE_EXTS))
      ∧ ((deliverFile chat rec mid jq).1 = DeliveryKind.document
        ↔ ¬(rec.is_video = true ∧ extOf rec.file_name ∈ PLAYABLE_EXTS))
      ∧ (jq = true → (deliverFile chat rec mid jq).2
          = some { delay := 600, chat_id := chat, data := mid }) := by
  intro chat rec mid jq
  have hkind : (deliverFile chat rec mid jq).1
      = classifyDelivery rec.file_name rec.is_video := rfl
  have hcls : classifyDelivery rec.file_name rec.is_video = DeliveryKind.video
      ↔ (rec.is_video = true ∧ extOf rec.file_name ∈ PLAYABLE_EXTS) := by
    unfold classifyDelivery
    by_cases hb : (rec.is_video && PLAYABLE_EXTS.contains (extOf rec.file_name)) = true
    · rw [if_pos hb]
      rw [Bool.and_eq_true] at hb
      exact ⟨fun _ => ⟨hb.1, (contains_iff_mem_strings _ _).mp hb.2⟩, fun _ => rfl⟩
    · rw [if_neg hb]
      constructor
      · intro h; exact DeliveryKind.noConfusion h
      · rintro ⟨hv, hm⟩
        exfalso
        apply hb
        rw [Bool.and_eq_true]
        exact ⟨hv, (contains_iff_mem_strings _ _).mpr hm⟩
  refine ⟨hkind ▸ hcls, ?_, ?_⟩
  · rw [hkind]
    constructor
    · intro hdoc
      intro hcond
      have := hcls.mpr hcond
      rw [this] at hdoc
      exact DeliveryKind.noConfusion hdoc
    · intro hcond
      cases hc : classifyDelivery rec.file_name rec.is_video with
      | video => exact absurd (hcls.mp hc) hcond
      | document => rfl
  · intro hjq
    subst hjq
    rfl

/-- Concrete run of C8: an uploaded `movie.mp4` marked as video is classified
as playable and the deletion job is armed for the sent message. -/
theorem deliver_file_classification_witness :
    ((deliverFile 9 ⟨"f", "movie.mp4", "video/mp4", true, 1, 0, 1⟩ 42 true).1
        = DeliveryKind.video
      ↔ ((true : Bool) = true
         ∧ extOf (FileRecordOut.file_name ⟨"f", "movie.mp4", "video/mp4", true, 1, 0, 1⟩)
             ∈ PLAYABLE_EXTS))
    ∧ (deliverFile 9 ⟨"f", "movie.mp4", "video/mp4", true, 1, 0, 1⟩ 42 true).2
        = some { delay := 600, chat_id := 9, data := 42 } :=
  ⟨(deliver_file_classification 9 ⟨"f", "movie.mp4", "video/mp4", true, 1, 0, 1⟩ 42 true).1,
   (deliver_file_classification 9 ⟨"f", "movie.mp4", "video/mp4", true, 1, 0, 1⟩ 42 true).2.2 rfl⟩

/-! ### Clearing the membership cache -/

/-- C10: `clear_membership_cache` with user id `0` behaves like the
no-argument call and deletes every cached row, because `0` is falsy. -/
theorem clear_membership_cache_zero_clears_all :
    ∀ s : DBState,
      clear_membership_cache (some 0) s = clear_membership_cache none s
      ∧ (clear_membership_cache (some 0) s).membership_cache = []
      ∧ (clear_membership_cache (some 0) s).files = s.files := by
  intro s
  refine ⟨rfl, rfl, rfl⟩

/-! ### Forced membership checks -/

/-- With `force_check = true` the cache read is skipped and the authority's
answer alone decides the result. -/
theorem check_user_in_channel_force_eq (env : AuthorityEnv) (now : Nat)
    (ch : String) (u : Int) (s : DBState) :
    check_user_in_channel env now ch u true s
      = match env.getChatMember (channelUsername ch) u with
        | Except.ok status =>
          (["member", "administrator", "creator"].contains status,
           cache_membership now u (stripAt ch)
             (["member", "administrator", "creator"].contains status) s,
           [(channelUsername ch, u)])
        | Except.error e =>
          if strContains e "user not found"
             || strContains e "user not participant" then
            (false, cache_membership now u (stripAt ch) false s,
             [(channelUsername ch, u)])
          else if strContains e "chat not found" then
            (true, s, [(channelUsername ch, u)])
          else if strContains e "forbidden" then
            (true, s, [(channelUsername ch, u)])
          else (true, s, [(channelUsername ch, u)]) := rfl

/-- Same reduction when the check is not forced but the cache misses. -/
theorem check_user_in_channel_miss_eq (env : AuthorityEnv) (now : Nat)
    (ch : String) (u : Int) (s : DBState) (f : Bool)
    (hm : f = true ∨ get_cached_membership now u ch s = none) :
    check_user_in_channel env now ch u f s
      = check_user_in_channel env now ch u true s := by
  rcases hm with hf | hm
  · rw [hf]
  · cases f with
    | true => rfl
    | false =>
      rw [check_user_in_channel_force_eq]
      unfold check_user_in_channel
      rw [hm]
      rfl

/-- Reduction of a forced check on an authority success. -/
theorem check_forced_ok (env : AuthorityEnv) (now : Nat) (ch : String)
    (u : Int) (s : DBState) (st : String)
    (h : env.getChatMember (channelUsername ch) u = Except.ok st) :
    check_user_in_channel env now ch u true s
      = (["member", "administrator", "creator"].contains st,
         cache_membership now u (stripAt ch)
           (["member", "administrator", "creator"].contains st) s,
         [(channelUsername ch, u)]) := by
  rw [check_user_in_channel_force_eq, h]

/-- Reduction of a forced check on an authority error. -/
theorem check_forced_error (env : AuthorityEnv) (now : Nat) (ch : String)
    (u : Int) (s : DBState) (e : String)
    (h : env.getChatMember (channelUsername ch) u = Except.error e) :
    check_user_in_channel env now ch u true s
      = (if strContains e "user not found"
            || strContains e "user not participant" then
           (false, cache_membership now u (stripAt ch) false s,
            [(channelUsername ch, u)])
         else if strContains e "chat not found" then
           (true, s, [(channelUsername ch, u)])
         else if strContains e "forbidden" then
           (true, s, [(channelUsername ch, u)])
         else (true, s, [(channelUsername ch, u)])) := by
  rw [check_user_in_channel_force_eq, h]

/-- A forced check returns the pure authority verdict and issues exactly one
authority query. -/
theorem check_user_in_channel_forced (env : AuthorityEnv) (now : Nat)
    (ch : String) (u : Int) (s : DBState) :
    (check_user_in_channel env now ch u true s).1 = authVerdict env ch u
    ∧ (check_user_in_channel env now ch u true s).2.2
        = [(channelUsername ch, u)] := by
  cases h : env.getChatMember (channelUsername ch) u with
  | ok st =>
    rw [check_forced_ok env now ch u s st h]
    unfold authVerdict
    rw [h]
    exact ⟨rfl, rfl⟩
  | error e =>
    rw [check_forced_error env now ch u s e h]
    have hv : authVerdict env ch u
        = !(strContains e "user not found"
            || strContains e "user not participant") := by
      unfold authVerdict
      rw [h]
    rw [hv]
    by_cases h1 : (strContains e "user not found"
        || strContains e "user not participant") = true
    · rw [if_pos h1, h1]
      exact ⟨rfl, rfl⟩
    · have h1f : (strContains e "user not found"
          || strContains e "user not participant") = false := by
        rwa [Bool.not_eq_true] at h1
      rw [if_neg h1, h1f]
      constructor
      · split
        · rfl
        · split
          · rfl
          · rfl
      · split
        · rfl
        · split
          · rfl
          · rfl

/-- Any state produced by `check_user_in_channel` is the input state or an
upsert of the checked `(user, channel)` pair. -/
theorem check_user_in_channel_state_cases (env : AuthorityEnv) (now : Nat)
    (ch : String) (u : Int) (f : Bool) (s : DBState) :
    (check_user_in_channel env now ch u f s).2.1 = s
    ∨ ∃ b, (check_user_in_channel env now ch u f s).2.1
        = cache_membership now u (stripAt ch) b s := by
  by_cases hcm : (f = true ∨ get_cached_membership now u ch s = none)
  · rw [check_user_in_channel_miss_eq env now ch u s f hcm]
    cases h : env.getChatMember (channelUsername ch) u with
    | ok st =>
      rw [check_forced_ok env now ch u s st h]
      right
      exact ⟨_, rfl⟩
    | error e =>
      rw [check_forced_error env now ch u s e h]
      split
      · right
        exact ⟨false, rfl⟩
      · split
        · left; rfl
        · split
          · left; rfl
          · left; rfl
  · push_neg at hcm
    obtain ⟨hf, hg⟩ := hcm
    have hf' : f = false := by
      cases f
      · rfl
      · exact absurd rfl hf
    obtain ⟨c, hc⟩ := Option.ne_none_iff_exists'.mp hg
    left
    subst hf'
    unfold check_user_in_channel
    rw [hc]
    rfl

/-- Rows present after a `check_user_in_channel` call were already present or
belong to the checked `(user, channel)` pair. -/
theorem check_user_in_channel_cache_sub (env : AuthorityEnv) (now : Nat)
    (ch : String) (u : Int) (f : Bool) (s : DBState) :
    ∀ r ∈ (check_user_in_channel env now ch u f s).2.1.membership_cache,
      r ∈ s.membership_cache ∨ (r.user_id = u ∧ r.channel = stripAt ch) := by
  intro r hr
  rcases check_user_in_channel_state_cases env now ch u f s with hst | ⟨b, hst⟩
  · rw [hst] at hr
    exact Or.inl hr
  · rw [hst] at hr
    have hcache : (cache_membership now u (stripAt ch) b s).membership_cache
        = s.membership_cache.filter
            (fun q => !(q.user_id == u && q.channel == stripAt ch))
          ++ [{ user_id := u, channel := stripAt ch, is_member := b,
                timestamp := now }] := rfl
    rw [hcache] at hr
    rcases List.mem_append.mp hr with hl | hl
    · exact Or.inl (List.mem_filter.mp hl).1
    · rcases List.mem_singleton.mp hl with rfl
      exact Or.inr ⟨rfl, rfl⟩

/-- `clear_membership_cache` with a specific user leaves no row of that user. -/
theorem clear_membership_user_rows (u : Int) (s : DBState) :
    ∀ r ∈ (clear_membership_cache (some u) s).membership_cache,
      r.user_id ≠ u := by
  intro r hr
  by_cases hu : u = 0
  · subst hu
    simp [clear_membership_cache, pyTruthyOptInt] at hr
  · have ht : pyTruthyOptInt (some u) = true := by
      simp [pyTruthyOptInt, hu]
    simp only [clear_membership_cache, ht, if_true] at hr
    have := (List.mem_filter.mp hr).2
    simpa using this

/-- On an authority error that is not a user-not-found error, the forced check
fails open and leaves the store exactly as it received it. -/
theorem check_user_in_channel_err_nocache (env : AuthorityEnv) (now : Nat)
    (ch : String) (u : Int) (s : DBState) (e : String)
    (h1 : env.getChatMember (channelUsername ch) u = Except.error e)
    (h2 : strContains e "user not found" = false)
    (h3 : strContains e "user not participant" = false) :
    (check_user_in_channel env now ch u true s).2.1 = s := by
  rw [check_forced_error env now ch u s e h1]
  simp only [h2, h3, Bool.or_self, Bool.false_eq_true, if_false]
  split
  · rfl
  · split
    · rfl
    · rfl

/-! ### C1: error policy of `check_user_in_channel` -/

/-- Environment for the C1 counterexample: the authority raises
"chat not found" for the second channel and reports membership for the
first. -/
def c1Env : AuthorityEnv :=
  ⟨fun ch _ => if ch = "@" ++ CHANNEL_2
               then Except.error "bad request: chat not found"
               else Except.ok "member"⟩

/-- Store for the C1 counterexample: user 7 has a cached row for the second
channel. -/
def c1State : DBState := ⟨[], [⟨7, CHANNEL_2, true, 50⟩]⟩

/-- C1 counterexample: a (forced) `check_membership` during which the
authority raises "chat not found" for the second group reports that channel
as joined, but the prior cache row for `(7, CHANNEL_2)` is deleted rather
than left unchanged. -/
theorem chat_not_found_cache_changed_counterexample :
    (check_membership c1Env 100 7 true c1State).1.channel2 = true
    ∧ c1State.membership_cache.filter
        (fun r => r.user_id == 7 && r.channel == CHANNEL_2)
      = [⟨7, CHANNEL_2, true, 50⟩]
    ∧ (check_membership c1Env 100 7 true c1State).2.1.membership_cache.filter
        (fun r => r.user_id == 7 && r.channel == CHANNEL_2)
      = [] := by decide

/-- C1 (amended): when the authority call raises, `check_user_in_channel`
itself returns false and caches false on a user-not-found / not-participant
message, and returns true (fail open) without touching the store on every
other message; however a forced `check_membership` has already deleted the
user's cached rows before the per-channel checks, so the prior row is gone
rather than unchanged. -/
theorem check_user_in_channel_error_policy :
    ∀ (env : AuthorityEnv) (now : Nat) (channel : String) (u : Int)
      (s : DBState) (e : String) (force : Bool),
      env.getChatMember (channelUsername channel) u = Except.error e →
      (force = true ∨ get_cached_membership now u channel s = none) →
      ((strContains e "user not found"
          || strContains e "user not participant") = true →
        check_user_in_channel env now channel u force s
          = (false, cache_membership now u (stripAt channel) false s,
             [(channelUsername channel, u)]))
      ∧ ((strContains e "user not found" = false
          ∧ strContains e "user not participant" = false) →
        check_user_in_channel env now channel u force s
          = (true, s, [(channelUsername channel, u)]))
      ∧ (∀ r ∈ (clear_membership_cache (some u) s).membership_cache,
          r.user_id ≠ u) := by
  intro env now channel u s e force herr hmiss
  rw [check_user_in_channel_miss_eq env now channel u s force hmiss,
    check_forced_error env now channel u s e herr]
  refine ⟨?_, ?_, clear_membership_user_rows u s⟩
  · intro h1
    rw [if_pos h1]
  · rintro ⟨h2, h3⟩
    simp only [h2, h3, Bool.or_self, Bool.false_eq_true, if_false]
    split
    · rfl
    · split
      · rfl
      · rfl

/-- Environment for the C1 witness: every authority call times out. -/
def c1WitnessEnv : AuthorityEnv := ⟨fun _ _ => Except.error "timed out"⟩

/-- Concrete run of C1 (amended): a timeout on a forced check fails open and
leaves the empty store untouched. -/
theorem check_user_in_channel_error_policy_witness :
    check_user_in_channel c1WitnessEnv 0 "g" 3 true ⟨[], []⟩
      = (true, ⟨[], []⟩, [("@g", 3)]) :=
  (check_user_in_channel_error_policy c1WitnessEnv 0 "g" 3 ⟨[], []⟩
    "timed out" true rfl (Or.inl rfl)).2.1 ⟨by decide, by decide⟩

/-! ### C4: forced `check_membership` aggregates fresh authority verdicts -/

/-- C4: with `forceFresh = true` the cache is bypassed and one fresh authority
query is issued per configured group; each per-channel flag equals the pure
authority verdict, `all_joined` is their conjunction, and `missing_channels`
holds exactly the handles of the groups whose check resolved false. -/
theorem check_membership_force_fresh :
    ∀ (env : AuthorityEnv) (now : Nat) (u : Int) (s : DBState),
      (check_membership env now u true s).1.channel1
          = authVerdict env CHANNEL_1 u
      ∧ (check_membership env now u true s).1.channel2
          = authVerdict env CHANNEL_2 u
      ∧ (check_membership env now u true s).1.all_joined
          = (authVerdict env CHANNEL_1 u && authVerdict env CHANNEL_2 u)
      ∧ (check_membership env now u true s).2.2
          = [(channelUsername CHANNEL_1, u), (channelUsername CHANNEL_2, u)]
      ∧ (∀ x : String,
          x ∈ (check_membership env now u true s).1.missing_channels
          ↔ ((x = "@" ++ CHANNEL_1 ∧ authVerdict env CHANNEL_1 u = false)
             ∨ (x = "@" ++ CHANNEL_2 ∧ authVerdict env CHANNEL_2 u = false))) := by
  intro env now u s
  have hf1 := check_user_in_channel_forced env now CHANNEL_1 u
    (clear_membership_cache (some u) s)
  have hf2 := check_user_in_channel_forced env now CHANNEL_2 u
    ((check_user_in_channel env now CHANNEL_1 u true
      (clear_membership_cache (some u) s)).2.1)
  have hch1 : (check_membership env now u true s).1.channel1
      = (check_user_in_channel env now CHANNEL_1 u true
          (clear_membership_cache (some u) s)).1 := rfl
  have hch2 : (check_membership env now u true s).1.channel2
      = (check_user_in_channel env now CHANNEL_2 u true
          ((check_user_in_channel env now CHANNEL_1 u true
            (clear_membership_cache (some u) s)).2.1)).1 := rfl
  have hall : (check_membership env now u true s).1.all_joined
      = ((check_membership env now u true s).1.channel1
         && (check_membership env now u true s).1.channel2) := rfl
  have hq : (check_membership env now u true s).2.2
      = (check_user_in_channel env now CHANNEL_1 u true
          (clear_membership_cache (some u) s)).2.2
        ++ (check_user_in_channel env now CHANNEL_2 u true
            ((check_user_in_channel env now CHANNEL_1 u true
              (clear_membership_cache (some u) s)).2.1)).2.2 := rfl
  have hmiss : (check_membership env now u true s).1.missing_channels
      = (if (check_membership env now u true s).1.channel1 then []
         else ["@" ++ CHANNEL_1])
        ++ (if (check_membership env now u true s).1.channel2 then []
            else ["@" ++ CHANNEL_2]) := rfl
  refine ⟨hch1.trans hf1.1, hch2.trans hf2.1, ?_, ?_, ?_⟩
  · rw [hall, hch1, hch2, hf1.1, hf2.1]
  · rw [hq, hf1.2, hf2.2]
    rfl
  · intro x
    rw [hmiss, hch1, hch2, hf1.1, hf2.1]
    cases hav1 : authVerdict env CHANNEL_1 u
      <;> cases hav2 : authVerdict env CHANNEL_2 u <;> simp

/-! ### C9: a forced check deletes the user's stale cache rows -/

/-- C9: a forced `check_membership` first deletes every cached row of the
user, so after a forced check in which the authority call for the second
group errors on a do-not-cache path, no cache row remains for that
`(user, group)` pair. -/
theorem check_membership_forced_deletes_stale_row :
    ∀ (env : AuthorityEnv) (now : Nat) (u : Int) (s : DBState) (e : String),
      env.getChatMember (channelUsername CHANNEL_2) u = Except.error e →
      strContains e "user not found" = false →
      strContains e "user not participant" = false →
      (∀ r ∈ (clear_membership_cache (some u) s).membership_cache,
          r.user_id ≠ u)
      ∧ (∀ r ∈ (check_membership env now u true s).2.1.membership_cache,
          ¬(r.user_id = u ∧ r.channel = CHANNEL_2)) := by
  intro env now u s e h1 h2 h3
  refine ⟨clear_membership_user_rows u s, ?_⟩
  intro r hr
  have hstate : (check_membership env now u true s).2.1
      = (check_user_in_channel env now CHANNEL_2 u true
          ((check_user_in_channel env now CHANNEL_1 u true
            (clear_membership_cache (some u) s)).2.1)).2.1 := rfl
  rw [hstate, check_user_in_channel_err_nocache env now CHANNEL_2 u _ e h1 h2 h3]
    at hr
  rintro ⟨hu, hc⟩
  rcases check_user_in_channel_cache_sub env now CHANNEL_1 u true _ r hr
    with hin | ⟨_, hch⟩
  · exact clear_membership_user_rows u s r hin hu
  · rw [hc] at hch
    exact absurd hch (by decide)

/-- Environment for the C9 witness: the authority reports "forbidden" for the
second channel and a non-member status for the first. -/
def c9Env : AuthorityEnv :=
  ⟨fun ch _ => if ch = "@" ++ CHANNEL_2
               then Except.error "forbidden: bot was kicked"
               else Except.ok "left"⟩

/-- Store for the C9 witness: user 5 has stale cached rows for both groups. -/
def c9State : DBState := ⟨[], [⟨5, CHANNEL_2, true, 0⟩, ⟨5, CHANNEL_1, false, 0⟩]⟩

/-- Concrete run of C9: after the forced check no row for `(5, CHANNEL_2)`
survives. -/
theorem check_membership_forced_deletes_stale_row_witness :
    (∀ r ∈ (clear_membership_cache (some 5) c9State).membership_cache,
        r.user_id ≠ 5)
    ∧ (∀ r ∈ (check_membership c9Env 0 5 true c9State).2.1.membership_cache,
        ¬(r.user_id = 5 ∧ r.channel = CHANNEL_2)) :=
  check_membership_forced_deletes_stale_row c9Env 0 5 c9State
    "forbidden: bot was kicked" (by rfl) (by decide) (by decide)
